import Mathlib

/-!
Verification development for the zeestream-console administrative dashboard.

The definitions below are a shallow embedding of the repository's code:

* the cross-store reconciliation workflow
  (`handleInsertSelectedScrappedMoviesToFirebase` in
  `src/pages/DashboardPage.tsx`, second variant, lines 568-635),
* the derived dashboard statistics (`getDashboardStats` in
  `src/utils/firebase.ts`),
* single-comment deletion (`deleteComment` in `src/utils/firebase.ts`),
* URL-slug generation (`generateSlug` in `src/utils/firebase.ts`).

JavaScript `Date` values are modelled as milliseconds since the epoch
(`Nat`); Firestore `Timestamp` values are a wrapper produced by
`Timestamp.fromDate`.  Asynchronous store calls that can fail are modelled
by an environment of oracles (`Env`): each store call's success or failure
is a boolean chosen by the environment, and the identifier Firestore
assigns to the k-th inserted document is `Env.newId k`.  Thrown/caught
exceptions are modelled by the corresponding failure branch of the code.
-/

namespace ZeeStream

/-- Milliseconds since the epoch; the model of a JavaScript `Date`. -/
abbrev Date := Nat

/-- Firestore timestamp value, as produced by `Timestamp.fromDate`. -/
structure Timestamp where
  ms : Date
deriving DecidableEq

/-- Model of `Timestamp.fromDate` from the Firestore SDK. -/
def Timestamp.fromDate (d : Date) : Timestamp := ⟨d⟩

/-- A comment as held on a scraped movie fetched from the backend REST
store (`Comment` in `src/types/index.ts`; the timestamp is optional
because the workflow guards it with `comment.timestamp || new Date()`). -/
structure ScrapeComment where
  id : String
  userId : String
  userEmail : String
  content : String
  timestamp : Option Date
deriving DecidableEq

/-- A scraped movie record as held in the `scrappedMovies` local state of
`DashboardPage` (the `Movie` interface of `src/types/index.ts`; fields the
workflow guards with `?.`/`||` are `Option`). -/
structure ScrapeRecord where
  id : String
  name : String
  slug : String
  thumbnailUrl : String
  category : String
  likes : Int
  rating : Int
  description : String
  trailerUrl : String
  watchUrl : String
  relationship : String
  isSeries : Bool
  comingSoon : Bool
  uploadDate : Option Date
  releaseDate : Option Date
  comments : Option (List ScrapeComment)
deriving DecidableEq

/-- A comment inside the write payload sent to Firestore: its timestamp has
been converted with `Timestamp.fromDate`. -/
structure PayloadComment where
  id : String
  userId : String
  userEmail : String
  content : String
  timestamp : Timestamp
deriving DecidableEq

/-- The `firebaseMovieData` write payload built by the workflow: the
scrape-store identifier is set to `undefined` (modelled `none`), the dates
are Firestore timestamps. -/
structure FirebasePayload where
  id : Option String
  name : String
  slug : String
  thumbnailUrl : String
  category : String
  likes : Int
  rating : Int
  description : String
  trailerUrl : String
  watchUrl : String
  relationship : String
  isSeries : Bool
  comingSoon : Bool
  uploadDate : Timestamp
  releaseDate : Option Timestamp
  comments : List PayloadComment
deriving DecidableEq

/-- Conversion of one nested comment inside the payload construction:
`{ ...comment, timestamp: Timestamp.fromDate(comment.timestamp || new Date()) }`. -/
def toPayloadComment (now : Date) (c : ScrapeComment) : PayloadComment :=
  { id := c.id
    userId := c.userId
    userEmail := c.userEmail
    content := c.content
    timestamp := Timestamp.fromDate (c.timestamp.getD now) }

/-- The `firebaseMovieData` object built at the top of the per-movie loop
body: spread of the movie with `id: undefined`,
`uploadDate: Timestamp.fromDate(movie.uploadDate || new Date())`,
`releaseDate: movie.releaseDate ? Timestamp.fromDate(movie.releaseDate) : null`,
and `comments: movie.comments?.map(...) || []`. -/
def toFirebaseMovieData (now : Date) (movie : ScrapeRecord) : FirebasePayload :=
  { id := none
    name := movie.name
    slug := movie.slug
    thumbnailUrl := movie.thumbnailUrl
    category := movie.category
    likes := movie.likes
    rating := movie.rating
    description := movie.description
    trailerUrl := movie.trailerUrl
    watchUrl := movie.watchUrl
    relationship := movie.relationship
    isSeries := movie.isSeries
    comingSoon := movie.comingSoon
    uploadDate := Timestamp.fromDate (movie.uploadDate.getD now)
    releaseDate := movie.releaseDate.map Timestamp.fromDate
    comments := (movie.comments.getD []).map (toPayloadComment now) }

/-- Environment of oracles for the remote stores: whether `addDoc`
succeeds for a given payload, the document identifier Firestore assigns to
the k-th document of the `movies` collection, whether the
`VITE_API_SCRAPPED_MOVIES_URL` configuration is defined, and whether the
backend HTTP DELETE succeeds for a given scrape-store identifier. -/
structure Env where
  insertOk : FirebasePayload → Bool
  newId : Nat → String
  apiUrlDefined : Bool
  deleteOk : String → Bool

/-- The mutable state touched by the workflow: the two local caches, the
operator's selection set, the busy flag, and the contents of the two remote
stores (primary Firestore `movies` collection as identifier/payload pairs,
secondary scrape store as a list of records). -/
@[ext]
structure DashboardState where
  scrappedMovies : List ScrapeRecord
  selectedScrappedMovieIds : Finset String
  isBatchInserting : Bool
  firebaseStore : List (String × FirebasePayload)
  backendStore : List ScrapeRecord
deriving DecidableEq

/-- The toast messages the workflow can emit, carrying exactly the data
interpolated into their description strings. -/
inductive ToastMsg where
  | noSelection : ToastMsg
  | deleteWarning (movieName : String) : ToastMsg
  | batchComplete (inserted failed : Nat) : ToastMsg
deriving DecidableEq

/-- One observable call against a remote store: `addDoc` on the primary
Firestore collection, or the backend HTTP DELETE of one scrape record. -/
inductive StoreCall where
  | addDoc (payload : FirebasePayload) : StoreCall
  | deleteScrapped (id : String) : StoreCall
deriving DecidableEq

/-- Everything a run of the batch workflow produces: the final state, the
emitted toasts and store calls in order, and the two counters local to the
handler. -/
@[ext]
structure BatchRunResult where
  state : DashboardState
  toasts : List ToastMsg
  calls : List StoreCall
  successCount : Nat
  failCount : Nat
deriving DecidableEq

/-- Body of the `for (const movie of moviesToInsert)` loop: build the
payload, attempt `addDoc` (counting success/failure), and on success
attempt the backend delete, emitting a warning toast if the configuration
is missing or the delete fails, and pruning both the backend store and the
`scrappedMovies` cache if it succeeds. -/
def processScrappedMovie (env : Env) (now : Date) (acc : BatchRunResult)
    (movie : ScrapeRecord) : BatchRunResult :=
  let payload := toFirebaseMovieData now movie
  let acc1 := { acc with calls := acc.calls ++ [StoreCall.addDoc payload] }
  if env.insertOk payload then
    let docId := env.newId acc1.state.firebaseStore.length
    let acc2 := { acc1 with
      state := { acc1.state with
        firebaseStore := acc1.state.firebaseStore ++ [(docId, payload)] }
      successCount := acc1.successCount + 1 }
    if env.apiUrlDefined then
      let acc3 := { acc2 with
        calls := acc2.calls ++ [StoreCall.deleteScrapped movie.id] }
      if env.deleteOk movie.id then
        { acc3 with
          state := { acc3.state with
            backendStore := acc3.state.backendStore.filter
              (fun r => r.id != movie.id)
            scrappedMovies := acc3.state.scrappedMovies.filter
              (fun m => m.id != movie.id) } }
      else
        { acc3 with toasts := acc3.toasts ++ [ToastMsg.deleteWarning movie.name] }
    else
      { acc2 with toasts := acc2.toasts ++ [ToastMsg.deleteWarning movie.name] }
  else
    { acc1 with failCount := acc1.failCount + 1 }

/-- The `moviesToInsert` list the workflow iterates over: the in-memory
scrape records whose identifier is in the operator's selection,
`scrappedMovies.filter(movie => selectedScrappedMovieIds.has(movie.id))`. -/
def moviesToInsert (st : DashboardState) : List ScrapeRecord :=
  st.scrappedMovies.filter
    (fun movie => decide (movie.id ∈ st.selectedScrappedMovieIds))

/-- The reconciliation workflow
`handleInsertSelectedScrappedMoviesToFirebase`: early return with an info
toast when the selection is empty; otherwise filter the in-memory records
by the selection, run the per-movie loop, clear the selection, reset the
busy flag, and emit the summary toast with the two counters. -/
def handleInsertSelectedScrappedMoviesToFirebase (env : Env) (now : Date)
    (st : DashboardState) : BatchRunResult :=
  if st.selectedScrappedMovieIds.card = 0 then
    { state := st
      toasts := [ToastMsg.noSelection]
      calls := []
      successCount := 0
      failCount := 0 }
  else
    let r := (moviesToInsert st).foldl (processScrappedMovie env now)
      { state := { st with isBatchInserting := true }
        toasts := []
        calls := []
        successCount := 0
        failCount := 0 }
    { r with
      state := { r.state with
        isBatchInserting := false
        selectedScrappedMovieIds := (∅ : Finset String) }
      toasts := r.toasts ++ [ToastMsg.batchComplete r.successCount r.failCount] }

/-- Number of records of a batch whose Firestore insert succeeds. -/
def numInserted (env : Env) (now : Date) : List ScrapeRecord → Nat
  | [] => 0
  | m :: l =>
    (if env.insertOk (toFirebaseMovieData now m) then 1 else 0) + numInserted env now l

/-- Number of records of a batch whose Firestore insert fails. -/
def numFailed (env : Env) (now : Date) : List ScrapeRecord → Nat
  | [] => 0
  | m :: l =>
    (if env.insertOk (toFirebaseMovieData now m) then 0 else 1) + numFailed env now l

/-- Identifiers of the records of a batch that get deleted from the
secondary store: insert succeeded, the API base URL is configured, and the
HTTP DELETE succeeds. -/
def deletedIds (env : Env) (now : Date) : List ScrapeRecord → List String
  | [] => []
  | m :: l =>
    (if env.insertOk (toFirebaseMovieData now m) && env.apiUrlDefined
        && env.deleteOk m.id then [m.id] else [])
      ++ deletedIds env now l

/-- Names of the records of a batch that trigger the
inserted-but-not-deleted warning toast: insert succeeded but the backend
delete step did not (missing configuration or failed DELETE). -/
def warnNames (env : Env) (now : Date) : List ScrapeRecord → List String
  | [] => []
  | m :: l =>
    (if env.insertOk (toFirebaseMovieData now m)
        && !(env.apiUrlDefined && env.deleteOk m.id) then [m.name] else [])
      ++ warnNames env now l

/-- The store calls a batch performs, in order: one `addDoc` per record,
followed by the backend DELETE exactly when the insert succeeded and the
API base URL is configured. -/
def callsOf (env : Env) (now : Date) : List ScrapeRecord → List StoreCall
  | [] => []
  | m :: l =>
    StoreCall.addDoc (toFirebaseMovieData now m)
      :: ((if env.insertOk (toFirebaseMovieData now m) && env.apiUrlDefined
             then [StoreCall.deleteScrapped m.id] else [])
          ++ callsOf env now l)

/-- The documents a batch appends to the primary store when the store
already holds `n` documents: each successfully inserted payload, keyed by
the identifier Firestore assigns to the document at that position. -/
def newDocs (env : Env) (now : Date) : Nat → List ScrapeRecord → List (String × FirebasePayload)
  | _, [] => []
  | n, m :: l =>
    if env.insertOk (toFirebaseMovieData now m) then
      (env.newId n, toFirebaseMovieData now m) :: newDocs env now (n + 1) l
    else
      newDocs env now n l

/-- Successive removal of the records with the given identifiers from a
record list, exactly as the workflow's per-record `filter` calls do. -/
def purge (ids : List String) (store : List ScrapeRecord) : List ScrapeRecord :=
  ids.foldl (fun s i => s.filter (fun r => r.id != i)) store

/-- A comment stored on a primary-store movie document (`Comment` in
`src/types/index.ts`, after the date conversion applied at every read). -/
structure Comment where
  id : String
  userId : String
  userEmail : String
  content : String
  timestamp : Date
deriving DecidableEq

/-- A primary-store movie record (`Movie` in `src/types/index.ts`), as
mapped by the reads in `src/utils/firebase.ts` (dates converted, missing
comment list defaulted to `[]`). -/
structure Movie where
  id : String
  name : String
  slug : String
  thumbnailUrl : String
  category : String
  likes : Int
  rating : Int
  description : String
  trailerUrl : String
  watchUrl : String
  relationship : String
  isSeries : Bool
  comingSoon : Bool
  uploadDate : Date
  releaseDate : Option Date
  comments : List Comment
deriving DecidableEq

/-- `DashboardStats` from `src/types/index.ts`. -/
structure DashboardStats where
  totalMovies : Nat
  totalSeries : Nat
  totalEpisodes : Nat
  totalUsers : Nat
  totalComments : Nat
  recentMovies : List Movie
deriving DecidableEq

/-- Sort-before relation of the comparator
`(a, b) => b.uploadDate.getTime() - a.uploadDate.getTime()`: `a` sorts
before `b` exactly when the comparator is non-positive, i.e. when `a` was
created at or after `b`. -/
def recentLe (a b : Movie) : Prop := b.uploadDate ≤ a.uploadDate

instance : DecidableRel recentLe := fun a b => Nat.decLe b.uploadDate a.uploadDate

instance : IsTotal Movie recentLe :=
  ⟨fun a b => (Nat.le_total b.uploadDate a.uploadDate).imp id id⟩

instance : IsTrans Movie recentLe :=
  ⟨fun _ _ _ h1 h2 => Nat.le_trans h2 h1⟩

/-- The statistics computation `getDashboardStats` of
`src/utils/firebase.ts` (lines 104-152), as a pure function of the mapped
movie list and the size of the users snapshot.  JavaScript
`Array.prototype.sort` (stable since ES2019) is modelled by the stable
`List.insertionSort`. -/
def getDashboardStats (movies : List Movie) (usersSize : Nat) : DashboardStats :=
  let seriesEpisodes := movies.filter (fun movie => movie.isSeries)
  let uniqueSeriesRelationships :=
    seriesEpisodes.foldl
      (fun s episode =>
        if episode.relationship ≠ "" then insert episode.relationship s else s)
      (∅ : Finset String)
  { totalMovies := movies.length
    totalSeries := uniqueSeriesRelationships.card
    totalEpisodes := seriesEpisodes.length
    totalUsers := usersSize
    totalComments := movies.foldl (fun acc movie => acc + movie.comments.length) 0
    recentMovies := (movies.insertionSort recentLe).take 5 }

/-- The comment-deletion operation `deleteComment` of
`src/utils/firebase.ts` (lines 80-89).  The `movies` collection is an
association list from document identifier to document data (identifiers
are unique in Firestore); the boolean reports whether an `updateDoc` write
was performed.  If the document exists, only its `comments` field is
rewritten, to the comment list with every comment whose `id` equals
`commentId` filtered out; otherwise nothing is written. -/
def deleteComment (store : List (String × Movie)) (movieId commentId : String) :
    List (String × Movie) × Bool :=
  match store.find? (fun e => e.1 == movieId) with
  | some _ =>
    (store.map (fun e =>
        if e.1 == movieId then
          (e.1, { e.2 with comments := e.2.comments.filter (fun c => c.id != commentId) })
        else e),
      true)
  | none => (store, false)

/-- ASCII fragment of `String.prototype.toLowerCase`: the code points of
`A`-`Z` are 65-90 and are shifted by 32. -/
def jsToLower (c : Char) : Char :=
  if 65 ≤ c.toNat ∧ c.toNat ≤ 90 then Char.ofNat (c.toNat + 32) else c

/-- Membership in the character class `[a-z0-9]` of the slug regexes
(code points 97-122 and 48-57). -/
def isSlugAlnum (c : Char) : Bool :=
  (97 ≤ c.toNat && c.toNat ≤ 122) || (48 ≤ c.toNat && c.toNat ≤ 57)

/-- Global replacement `replace(/[^a-z0-9]+/g, '-')`: every maximal run of
characters outside `[a-z0-9]` becomes a single hyphen.  The boolean flag
records whether the scan is currently inside such a run (so the run's
hyphen has already been emitted). -/
def collapseNonAlnum : Bool → List Char → List Char
  | _, [] => []
  | inRun, c :: cs =>
    if isSlugAlnum c then c :: collapseNonAlnum false cs
    else if inRun then collapseNonAlnum true cs
    else '-' :: collapseNonAlnum true cs

/-- Effect of the `^-` alternative of `replace(/(^-|-$)+/g, '')`: the
anchor holds only at position 0, so it removes one leading hyphen. -/
def dropLeadHyphen (l : List Char) : List Char :=
  if l.head? = some '-' then l.tail else l

/-- Effect of the `-$` alternative of `replace(/(^-|-$)+/g, '')`: it
removes one trailing hyphen. -/
def dropTrailHyphen (l : List Char) : List Char :=
  if l.getLast? = some '-' then l.dropLast else l

/-- Global replacement `replace(/(^-|-$)+/g, '')`: scanning left to right,
`^-` matches one leading hyphen and `-$` one trailing hyphen. -/
def trimEdgeHyphens (l : List Char) : List Char :=
  dropTrailHyphen (dropLeadHyphen l)

/-- Character class of slug output: `[a-z0-9]` or the hyphen. -/
def isSlugChar (c : Char) : Bool := isSlugAlnum c || c == '-'

/-- Shape invariant of `collapseNonAlnum` output (and of its suffixes):
every character is a slug character, and when the flag records that the
previously emitted character was a hyphen, the next character is
alphanumeric — so hyphens are never adjacent. -/
def NoRun : Bool → List Char → Prop
  | _, [] => True
  | b, c :: cs =>
    isSlugChar c = true ∧ (b = true → isSlugAlnum c = true) ∧ NoRun (c == '-') cs

/-- The slug generator `generateSlug` of `src/utils/firebase.ts`
(lines 154-159): lowercase, collapse non-alphanumeric runs to hyphens,
strip an edge hyphen. -/
def generateSlug (name : String) : String :=
  String.mk (trimEdgeHyphens (collapseNonAlnum false (name.data.map jsToLower)))

/-- Sample scraped comment for concrete runs. -/
def sampleComment : ScrapeComment :=
  { id := "c1", userId := "u1", userEmail := "u1@example.com"
    content := "nice", timestamp := some 5 }

/-- Sample scraped movie record for concrete runs. -/
def sampleMovie : ScrapeRecord :=
  { id := "s1", name := "M1", slug := "m1", thumbnailUrl := "th"
    category := "action", likes := 3, rating := 7, description := "d"
    trailerUrl := "tr", watchUrl := "w", relationship := ""
    isSeries := false, comingSoon := false
    uploadDate := some 10, releaseDate := some 20
    comments := some [sampleComment] }

/-- Environment in which every Firestore insert succeeds but every backend
delete fails. -/
def envDeleteFails : Env :=
  { insertOk := fun _ => true, newId := fun _ => "fb1"
    apiUrlDefined := true, deleteOk := fun _ => false }

/-- Environment in which every store call succeeds. -/
def envAllOk : Env :=
  { insertOk := fun _ => true, newId := fun _ => "fb1"
    apiUrlDefined := true, deleteOk := fun _ => true }

/-- Environment in which every Firestore insert fails. -/
def envInsertFails : Env :=
  { insertOk := fun _ => false, newId := fun _ => "fb1"
    apiUrlDefined := true, deleteOk := fun _ => true }

/-- Dashboard state holding exactly the sample movie, selected. -/
def stOne : DashboardState :=
  { scrappedMovies := [sampleMovie]
    selectedScrappedMovieIds := {"s1"}
    isBatchInserting := false
    firebaseStore := []
    backendStore := [sampleMovie] }

/-- Dashboard state whose selection holds an identifier with no matching
in-memory record. -/
def stGhost : DashboardState :=
  { scrappedMovies := []
    selectedScrappedMovieIds := {"ghost"}
    isBatchInserting := false
    firebaseStore := []
    backendStore := [] }

/-- Dashboard state with an empty selection. -/
def stEmptySel : DashboardState :=
  { scrappedMovies := [sampleMovie]
    selectedScrappedMovieIds := (∅ : Finset String)
    isBatchInserting := false
    firebaseStore := []
    backendStore := [sampleMovie] }

/-- Specification of one document of the primary store after a batch run:
either it was already there, or it originates from a batch record by the
payload transformation — its key is store-assigned (`Env.newId`), distinct
from the record's scrape-store identifier, the payload carries no
identifier, and all dates are converted to Firestore timestamps. -/
def migratedDocSpec (env : Env) (now : Date) (st : DashboardState)
    (doc : String × FirebasePayload) : Prop :=
  doc ∈ st.firebaseStore ∨
    ∃ m ∈ moviesToInsert st, ∃ k : Nat,
      doc = (env.newId k, toFirebaseMovieData now m) ∧
      doc.2.id = none ∧
      doc.1 ≠ m.id ∧
      doc.2.uploadDate = Timestamp.fromDate (m.uploadDate.getD now) ∧
      doc.2.releaseDate = m.releaseDate.map Timestamp.fromDate ∧
      doc.2.comments = (m.comments.getD []).map (toPayloadComment now)

/-- Sample primary-store movie (a series episode with one comment). -/
def movieA : Movie :=
  { id := "m1", name := "A", slug := "a", thumbnailUrl := "t"
    category := "c", likes := 1, rating := 5, description := "d"
    trailerUrl := "tr", watchUrl := "w", relationship := "r1"
    isSeries := true, comingSoon := false
    uploadDate := 100, releaseDate := none
    comments := [{ id := "c1", userId := "u", userEmail := "e"
                   content := "x", timestamp := 7 }] }

/-- Sample primary-store movie (not a series, created earlier). -/
def movieB : Movie :=
  { movieA with
    id := "m2"
    name := "B"
    isSeries := false
    uploadDate := 50
    relationship := "" }

/-- Relation between a movie document before and after `deleteComment`
rewrote it: the comment list is the old one with exactly the comments
whose identifier equals `commentId` removed (a sublist, so the relative
order of the survivors is preserved), and every other field is unchanged. -/
def commentRemovalSpec (old new : Movie) (commentId : String) : Prop :=
  new.comments = old.comments.filter (fun c => c.id != commentId) ∧
  List.Sublist new.comments old.comments ∧
  (∀ c ∈ old.comments, (c ∈ new.comments ↔ c.id ≠ commentId)) ∧
  new.id = old.id ∧ new.name = old.name ∧ new.slug = old.slug ∧
  new.thumbnailUrl = old.thumbnailUrl ∧ new.category = old.category ∧
  new.likes = old.likes ∧ new.rating = old.rating ∧
  new.description = old.description ∧ new.trailerUrl = old.trailerUrl ∧
  new.watchUrl = old.watchUrl ∧ new.relationship = old.relationship ∧
  new.isSeries = old.isSeries ∧ new.comingSoon = old.comingSoon ∧
  new.uploadDate = old.uploadDate ∧ new.releaseDate = old.releaseDate

/-- Sample `movies` collection for comment deletion. -/
def commentsStore : List (String × Movie) := [("m1", movieA)]

lemma purge_nil (s : List ScrapeRecord) : purge [] s = s := rfl

lemma purge_append (a b : List String) (s : List ScrapeRecord) :
    purge (a ++ b) s = purge b (purge a s) :=
  List.foldl_append _ _ a b

lemma mem_of_mem_purge {r : ScrapeRecord} : ∀ (ids : List String)
    (s : List ScrapeRecord), r ∈ purge ids s → r ∈ s
  | [], _, h => h
  | i :: ids, s, h => by
    have h1 : r ∈ s.filter (fun r => r.id != i) :=
      mem_of_mem_purge ids (s.filter (fun r => r.id != i)) h
    exact List.mem_of_mem_filter h1

lemma mem_purge {r : ScrapeRecord} : ∀ (ids : List String)
    (s : List ScrapeRecord), r ∈ s → r.id ∉ ids → r ∈ purge ids s
  | [], _, hs, _ => hs
  | i :: ids, s, hs, hid => by
    refine mem_purge ids _ ?_ (fun h => hid (List.mem_cons_of_mem _ h))
    refine List.mem_filter.mpr ⟨hs, ?_⟩
    simp only [bne_iff_ne, ne_eq]
    exact fun h => hid (h ▸ List.mem_cons_self _ _)

lemma processScrappedMovie_selected (env : Env) (now : Date)
    (acc : BatchRunResult) (movie : ScrapeRecord) :
    (processScrappedMovie env now acc movie).state.selectedScrappedMovieIds
      = acc.state.selectedScrappedMovieIds := by
  cases hI : env.insertOk (toFirebaseMovieData now movie) <;>
    cases hU : env.apiUrlDefined <;>
      cases hD : env.deleteOk movie.id <;>
        simp [processScrappedMovie, hI, hU, hD]

lemma processScrappedMovie_success (env : Env) (now : Date)
    (acc : BatchRunResult) (movie : ScrapeRecord) :
    (processScrappedMovie env now acc movie).successCount
      = acc.successCount
        + (if env.insertOk (toFirebaseMovieData now movie) then 1 else 0) := by
  cases hI : env.insertOk (toFirebaseMovieData now movie) <;>
    cases hU : env.apiUrlDefined <;>
      cases hD : env.deleteOk movie.id <;>
        simp [processScrappedMovie, hI, hU, hD]

lemma processScrappedMovie_fail (env : Env) (now : Date)
    (acc : BatchRunResult) (movie : ScrapeRecord) :
    (processScrappedMovie env now acc movie).failCount
      = acc.failCount
        + (if env.insertOk (toFirebaseMovieData now movie) then 0 else 1) := by
  cases hI : env.insertOk (toFirebaseMovieData now movie) <;>
    cases hU : env.apiUrlDefined <;>
      cases hD : env.deleteOk movie.id <;>
        simp [processScrappedMovie, hI, hU, hD]

lemma processScrappedMovie_toasts (env : Env) (now : Date)
    (acc : BatchRunResult) (movie : ScrapeRecord) :
    (processScrappedMovie env now acc movie).toasts
      = acc.toasts
        ++ (if env.insertOk (toFirebaseMovieData now movie)
              && !(env.apiUrlDefined && env.deleteOk movie.id)
            then [ToastMsg.deleteWarning movie.name] else []) := by
  cases hI : env.insertOk (toFirebaseMovieData now movie) <;>
    cases hU : env.apiUrlDefined <;>
      cases hD : env.deleteOk movie.id <;>
        simp [processScrappedMovie, hI, hU, hD]

lemma processScrappedMovie_calls (env : Env) (now : Date)
    (acc : BatchRunResult) (movie : ScrapeRecord) :
    (processScrappedMovie env now acc movie).calls
      = acc.calls
        ++ (StoreCall.addDoc (toFirebaseMovieData now movie)
              :: (if env.insertOk (toFirebaseMovieData now movie) && env.apiUrlDefined
                  then [StoreCall.deleteScrapped movie.id] else [])) := by
  cases hI : env.insertOk (toFirebaseMovieData now movie) <;>
    cases hU : env.apiUrlDefined <;>
      cases hD : env.deleteOk movie.id <;>
        simp [processScrappedMovie, hI, hU, hD]

lemma processScrappedMovie_fb (env : Env) (now : Date)
    (acc : BatchRunResult) (movie : ScrapeRecord) :
    (processScrappedMovie env now acc movie).state.firebaseStore
      = acc.state.firebaseStore
        ++ (if env.insertOk (toFirebaseMovieData now movie)
            then [(env.newId acc.state.firebaseStore.length,
                   toFirebaseMovieData now movie)]
            else []) := by
  cases hI : env.insertOk (toFirebaseMovieData now movie) <;>
    cases hU : env.apiUrlDefined <;>
      cases hD : env.deleteOk movie.id <;>
        simp [processScrappedMovie, hI, hU, hD]

lemma processScrappedMovie_backend (env : Env) (now : Date)
    (acc : BatchRunResult) (movie : ScrapeRecord) :
    (processScrappedMovie env now acc movie).state.backendStore
      = purge (if env.insertOk (toFirebaseMovieData now movie)
                  && env.apiUrlDefined && env.deleteOk movie.id
               then [movie.id] else []) acc.state.backendStore := by
  cases hI : env.insertOk (toFirebaseMovieData now movie) <;>
    cases hU : env.apiUrlDefined <;>
      cases hD : env.deleteOk movie.id <;>
        simp [processScrappedMovie, purge, hI, hU, hD]

lemma processScrappedMovie_scrapped (env : Env) (now : Date)
    (acc : BatchRunResult) (movie : ScrapeRecord) :
    (processScrappedMovie env now acc movie).state.scrappedMovies
      = purge (if env.insertOk (toFirebaseMovieData now movie)
                  && env.apiUrlDefined && env.deleteOk movie.id
               then [movie.id] else []) acc.state.scrappedMovies := by
  cases hI : env.insertOk (toFirebaseMovieData now movie) <;>
    cases hU : env.apiUrlDefined <;>
      cases hD : env.deleteOk movie.id <;>
        simp [processScrappedMovie, purge, hI, hU, hD]

lemma processScrappedMovie_batching (env : Env) (now : Date)
    (acc : BatchRunResult) (movie : ScrapeRecord) :
    (processScrappedMovie env now acc movie).state.isBatchInserting
      = acc.state.isBatchInserting := by
  cases hI : env.insertOk (toFirebaseMovieData now movie) <;>
    cases hU : env.apiUrlDefined <;>
      cases hD : env.deleteOk movie.id <;>
        simp [processScrappedMovie, hI, hU, hD]

lemma foldl_process_selected (env : Env) (now : Date) :
    ∀ (l : List ScrapeRecord) (acc : BatchRunResult),
      (l.foldl (processScrappedMovie env now) acc).state.selectedScrappedMovieIds
        = acc.state.selectedScrappedMovieIds
  | [], _ => rfl
  | m :: l, acc => by
    rw [List.foldl_cons, foldl_process_selected env now l,
      processScrappedMovie_selected]

lemma foldl_process_batching (env : Env) (now : Date) :
    ∀ (l : List ScrapeRecord) (acc : BatchRunResult),
      (l.foldl (processScrappedMovie env now) acc).state.isBatchInserting
        = acc.state.isBatchInserting
  | [], _ => rfl
  | m :: l, acc => by
    rw [List.foldl_cons, foldl_process_batching env now l,
      processScrappedMovie_batching]

lemma foldl_process_success (env : Env) (now : Date) :
    ∀ (l : List ScrapeRecord) (acc : BatchRunResult),
      (l.foldl (processScrappedMovie env now) acc).successCount
        = acc.successCount + numInserted env now l
  | [], _ => rfl
  | m :: l, acc => by
    rw [List.foldl_cons, foldl_process_success env now l,
      processScrappedMovie_success, numInserted, Nat.add_assoc]

lemma foldl_process_fail (env : Env) (now : Date) :
    ∀ (l : List ScrapeRecord) (acc : BatchRunResult),
      (l.foldl (processScrappedMovie env now) acc).failCount
        = acc.failCount + numFailed env now l
  | [], _ => rfl
  | m :: l, acc => by
    rw [List.foldl_cons, foldl_process_fail env now l,
      processScrappedMovie_fail, numFailed, Nat.add_assoc]

lemma foldl_process_toasts (env : Env) (now : Date) :
    ∀ (l : List ScrapeRecord) (acc : BatchRunResult),
      (l.foldl (processScrappedMovie env now) acc).toasts
        = acc.toasts ++ (warnNames env now l).map ToastMsg.deleteWarning
  | [], acc => by simp [warnNames]
  | m :: l, acc => by
    rw [List.foldl_cons, foldl_process_toasts env now l,
      processScrappedMovie_toasts, warnNames]
    cases hW : env.insertOk (toFirebaseMovieData now m)
        && !(env.apiUrlDefined && env.deleteOk m.id) <;>
      simp [hW, List.append_assoc]

lemma foldl_process_calls (env : Env) (now : Date) :
    ∀ (l : List ScrapeRecord) (acc : BatchRunResult),
      (l.foldl (processScrappedMovie env now) acc).calls
        = acc.calls ++ callsOf env now l
  | [], acc => by simp [callsOf]
  | m :: l, acc => by
    rw [List.foldl_cons, foldl_process_calls env now l,
      processScrappedMovie_calls, callsOf]
    cases hC : env.insertOk (toFirebaseMovieData now m) && env.apiUrlDefined <;>
      simp [hC, List.append_assoc]

lemma foldl_process_fb (env : Env) (now : Date) :
    ∀ (l : List ScrapeRecord) (acc : BatchRunResult),
      (l.foldl (processScrappedMovie env now) acc).state.firebaseStore
        = acc.state.firebaseStore
          ++ newDocs env now acc.state.firebaseStore.length l
  | [], acc => by simp [newDocs]
  | m :: l, acc => by
    rw [List.foldl_cons, foldl_process_fb env now l, processScrappedMovie_fb,
      newDocs]
    cases hI : env.insertOk (toFirebaseMovieData now m) <;>
      simp [hI, List.append_assoc]

lemma foldl_process_backend (env : Env) (now : Date) :
    ∀ (l : List ScrapeRecord) (acc : BatchRunResult),
      (l.foldl (processScrappedMovie env now) acc).state.backendStore
        = purge (deletedIds env now l) acc.state.backendStore
  | [], _ => rfl
  | m :: l, acc => by
    rw [List.foldl_cons, foldl_process_backend env now l,
      processScrappedMovie_backend, deletedIds, purge_append]

lemma foldl_process_scrapped (env : Env) (now : Date) :
    ∀ (l : List ScrapeRecord) (acc : BatchRunResult),
      (l.foldl (processScrappedMovie env now) acc).state.scrappedMovies
        = purge (deletedIds env now l) acc.state.scrappedMovies
  | [], _ => rfl
  | m :: l, acc => by
    rw [List.foldl_cons, foldl_process_scrapped env now l,
      processScrappedMovie_scrapped, deletedIds, purge_append]

/-- Full characterization of a non-empty batch run of the reconciliation
workflow in terms of the batch `moviesToInsert st`. -/
lemma handle_spec (env : Env) (now : Date) (st : DashboardState)
    (hne : st.selectedScrappedMovieIds ≠ ∅) :
    handleInsertSelectedScrappedMoviesToFirebase env now st =
      { state :=
          { scrappedMovies :=
              purge (deletedIds env now (moviesToInsert st)) st.scrappedMovies
            selectedScrappedMovieIds := (∅ : Finset String)
            isBatchInserting := false
            firebaseStore :=
              st.firebaseStore
                ++ newDocs env now st.firebaseStore.length (moviesToInsert st)
            backendStore :=
              purge (deletedIds env now (moviesToInsert st)) st.backendStore }
        toasts :=
          (warnNames env now (moviesToInsert st)).map ToastMsg.deleteWarning
            ++ [ToastMsg.batchComplete
                  (numInserted env now (moviesToInsert st))
                  (numFailed env now (moviesToInsert st))]
        calls := callsOf env now (moviesToInsert st)
        successCount := numInserted env now (moviesToInsert st)
        failCount := numFailed env now (moviesToInsert st) } := by
  have hcard : ¬ st.selectedScrappedMovieIds.card = 0 := by
    simpa [Finset.card_eq_zero] using hne
  unfold handleInsertSelectedScrappedMoviesToFirebase
  rw [if_neg hcard]
  dsimp only
  refine BatchRunResult.ext ?_ ?_ ?_ ?_ ?_ <;> dsimp only
  · refine DashboardState.ext ?_ ?_ ?_ ?_ ?_ <;> dsimp only
    · exact foldl_process_scrapped env now (moviesToInsert st) _
    · exact foldl_process_fb env now (moviesToInsert st) _
    · exact foldl_process_backend env now (moviesToInsert st) _
  · rw [foldl_process_toasts env now (moviesToInsert st) _,
      foldl_process_success env now (moviesToInsert st) _,
      foldl_process_fail env now (moviesToInsert st) _]
    simp
  · simp [foldl_process_calls env now]
  · simp [foldl_process_success env now]
  · simp [foldl_process_fail env now]

lemma moviesToInsert_subset {st : DashboardState} {m : ScrapeRecord}
    (h : m ∈ moviesToInsert st) : m ∈ st.scrappedMovies :=
  List.mem_of_mem_filter h

lemma mem_moviesToInsert {st : DashboardState} {m : ScrapeRecord}
    (hm : m ∈ st.scrappedMovies) (hsel : m.id ∈ st.selectedScrappedMovieIds) :
    m ∈ moviesToInsert st :=
  List.mem_filter.mpr ⟨hm, by simpa using hsel⟩

lemma moviesToInsert_of_empty {st : DashboardState}
    (h : st.selectedScrappedMovieIds = ∅) : moviesToInsert st = [] := by
  simp [moviesToInsert, h]

lemma id_inj_on_scrapped {st : DashboardState}
    (hids : (st.scrappedMovies.map (fun r => r.id)).Nodup)
    {x y : ScrapeRecord} (hx : x ∈ st.scrappedMovies) (hy : y ∈ st.scrappedMovies)
    (h : x.id = y.id) : x = y :=
  List.inj_on_of_nodup_map hids hx hy h

lemma numInserted_add_numFailed (env : Env) (now : Date) :
    ∀ l : List ScrapeRecord,
      numInserted env now l + numFailed env now l = l.length
  | [] => rfl
  | m :: l => by
    have ih := numInserted_add_numFailed env now l
    rw [numInserted, numFailed, List.length_cons]
    cases hI : env.insertOk (toFirebaseMovieData now m) <;> simp [hI] <;> omega

lemma numFailed_pos (env : Env) (now : Date) {m : ScrapeRecord} :
    ∀ {l : List ScrapeRecord}, m ∈ l →
      env.insertOk (toFirebaseMovieData now m) = false →
      1 ≤ numFailed env now l
  | [], hm, _ => absurd hm (List.not_mem_nil m)
  | a :: l, hm, hins => by
    rw [numFailed]
    rcases List.mem_cons.mp hm with rfl | h
    · simp [hins]
    · have := numFailed_pos env now h hins
      omega

lemma numInserted_pos (env : Env) (now : Date) {m : ScrapeRecord} :
    ∀ {l : List ScrapeRecord}, m ∈ l →
      env.insertOk (toFirebaseMovieData now m) = true →
      1 ≤ numInserted env now l
  | [], hm, _ => absurd hm (List.not_mem_nil m)
  | a :: l, hm, hins => by
    rw [numInserted]
    rcases List.mem_cons.mp hm with rfl | h
    · simp [hins]
    · have := numInserted_pos env now h hins
      omega

lemma mem_warnNames (env : Env) (now : Date) {m : ScrapeRecord} :
    ∀ {l : List ScrapeRecord}, m ∈ l →
      (env.insertOk (toFirebaseMovieData now m)
        && !(env.apiUrlDefined && env.deleteOk m.id)) = true →
      m.name ∈ warnNames env now l
  | [], hm, _ => absurd hm (List.not_mem_nil m)
  | a :: l, hm, hc => by
    rw [warnNames]
    rcases List.mem_cons.mp hm with rfl | h
    · rw [if_pos hc]
      exact List.mem_append_left _ (List.mem_singleton_self _)
    · exact List.mem_append_right _ (mem_warnNames env now h hc)

lemma addDoc_mem_callsOf (env : Env) (now : Date) {m : ScrapeRecord} :
    ∀ {l : List ScrapeRecord}, m ∈ l →
      StoreCall.addDoc (toFirebaseMovieData now m) ∈ callsOf env now l
  | [], hm => absurd hm (List.not_mem_nil m)
  | a :: l, hm => by
    rw [callsOf]
    rcases List.mem_cons.mp hm with rfl | h
    · exact List.mem_cons_self _ _
    · exact List.mem_cons_of_mem _
        (List.mem_append_right _ (addDoc_mem_callsOf env now h))

lemma exists_of_delete_mem_callsOf (env : Env) (now : Date) {i : String} :
    ∀ {l : List ScrapeRecord}, StoreCall.deleteScrapped i ∈ callsOf env now l →
      ∃ m ∈ l, m.id = i ∧ env.insertOk (toFirebaseMovieData now m) = true
        ∧ env.apiUrlDefined = true
  | [], h => absurd h (List.not_mem_nil _)
  | a :: l, h => by
    rw [callsOf] at h
    rcases List.mem_cons.mp h with heq | h2
    · simp at heq
    · rcases List.mem_append.mp h2 with h3 | h4
      · cases hI : env.insertOk (toFirebaseMovieData now a) <;>
          cases hU : env.apiUrlDefined <;>
            simp [hI, hU] at h3
        exact ⟨a, List.mem_cons_self _ _, h3.symm, hI, rfl⟩
      · obtain ⟨m, hm, rest⟩ := exists_of_delete_mem_callsOf env now h4
        exact ⟨m, List.mem_cons_of_mem _ hm, rest⟩

lemma exists_of_mem_deletedIds (env : Env) (now : Date) {i : String} :
    ∀ {l : List ScrapeRecord}, i ∈ deletedIds env now l →
      ∃ m ∈ l, m.id = i ∧ env.insertOk (toFirebaseMovieData now m) = true
  | [], h => absurd h (List.not_mem_nil _)
  | a :: l, h => by
    rw [deletedIds] at h
    rcases List.mem_append.mp h with h1 | h2
    · cases hI : env.insertOk (toFirebaseMovieData now a) <;>
        cases hU : env.apiUrlDefined <;>
          cases hD : env.deleteOk a.id <;>
            simp [hI, hU, hD] at h1
      exact ⟨a, List.mem_cons_self _ _, h1.symm, hI⟩
    · obtain ⟨m, hm, rest⟩ := exists_of_mem_deletedIds env now h2
      exact ⟨m, List.mem_cons_of_mem _ hm, rest⟩

lemma mem_newDocs (env : Env) (now : Date) {d : String × FirebasePayload} :
    ∀ {n : Nat} {l : List ScrapeRecord}, d ∈ newDocs env now n l →
      ∃ m ∈ l, ∃ k, d = (env.newId k, toFirebaseMovieData now m)
  | _, [], h => absurd h (List.not_mem_nil _)
  | n, a :: l, h => by
    rw [newDocs] at h
    cases hI : env.insertOk (toFirebaseMovieData now a) <;> rw [hI] at h
    · simp only [Bool.false_eq_true, if_false] at h
      obtain ⟨m, hm, k, hk⟩ := mem_newDocs env now h
      exact ⟨m, List.mem_cons_of_mem _ hm, k, hk⟩
    · simp only [if_true] at h
      rcases List.mem_cons.mp h with rfl | h2
      · exact ⟨a, List.mem_cons_self _ _, n, rfl⟩
      · obtain ⟨m, hm, k, hk⟩ := mem_newDocs env now h2
        exact ⟨m, List.mem_cons_of_mem _ hm, k, hk⟩

/-- C1 counterexample: one selected record whose Firestore insert succeeds
and whose backend delete fails.  The code counts the record as a plain
success (`successCount = 1`, not `0`), leaves it in the secondary store,
and the batch summary carries only the two counts (inserted, failed) —
there is no separate inserted-but-not-deleted count. -/
theorem C1_counterexample :
    (handleInsertSelectedScrappedMoviesToFirebase envDeleteFails 0 stOne).successCount = 1 ∧
    (handleInsertSelectedScrappedMoviesToFirebase envDeleteFails 0 stOne).failCount = 0 ∧
    (handleInsertSelectedScrappedMoviesToFirebase envDeleteFails 0 stOne).toasts
      = [ToastMsg.deleteWarning "M1", ToastMsg.batchComplete 1 0] ∧
    sampleMovie ∈ (handleInsertSelectedScrappedMoviesToFirebase envDeleteFails 0 stOne).state.backendStore ∧
    ¬ (handleInsertSelectedScrappedMoviesToFirebase envDeleteFails 0 stOne).successCount = 0 := by
  decide

/-- C1 (amended): a record whose insert succeeds but whose backend delete
step fails triggers a per-record warning toast naming it, yet is counted
in `successCount` (the first of the only two counts of the final summary
toast, which is the last toast emitted). -/
theorem C1_warning_toast_but_counted_as_success (env : Env) (now : Date)
    (st : DashboardState) (m : ScrapeRecord)
    (hm : m ∈ st.scrappedMovies)
    (hsel : m.id ∈ st.selectedScrappedMovieIds)
    (hins : env.insertOk (toFirebaseMovieData now m) = true)
    (hdel : (env.apiUrlDefined && env.deleteOk m.id) = false) :
    ToastMsg.deleteWarning m.name
        ∈ (handleInsertSelectedScrappedMoviesToFirebase env now st).toasts ∧
    1 ≤ (handleInsertSelectedScrappedMoviesToFirebase env now st).successCount ∧
    (handleInsertSelectedScrappedMoviesToFirebase env now st).toasts.getLast?
      = some (ToastMsg.batchComplete
          (handleInsertSelectedScrappedMoviesToFirebase env now st).successCount
          (handleInsertSelectedScrappedMoviesToFirebase env now st).failCount) := by
  have hne : st.selectedScrappedMovieIds ≠ ∅ := Finset.ne_empty_of_mem hsel
  rw [handle_spec env now st hne]
  have hmti : m ∈ moviesToInsert st := mem_moviesToInsert hm hsel
  refine ⟨?_, numInserted_pos env now hmti hins, List.getLast?_concat _⟩
  refine List.mem_append_left _ ?_
  refine List.mem_map.mpr ⟨m.name, ?_, rfl⟩
  exact mem_warnNames env now hmti (by rw [hins, hdel]; rfl)

/-- Witness for the amended C1 at a concrete input. -/
theorem C1_warning_toast_but_counted_as_success_witness :
    sampleMovie ∈ stOne.scrappedMovies ∧
    sampleMovie.id ∈ stOne.selectedScrappedMovieIds ∧
    envDeleteFails.insertOk (toFirebaseMovieData 0 sampleMovie) = true ∧
    (envDeleteFails.apiUrlDefined && envDeleteFails.deleteOk sampleMovie.id) = false ∧
    ToastMsg.deleteWarning sampleMovie.name
      ∈ (handleInsertSelectedScrappedMoviesToFirebase envDeleteFails 0 stOne).toasts :=
  ⟨by decide, by decide, rfl, rfl,
    (C1_warning_toast_but_counted_as_success envDeleteFails 0 stOne sampleMovie
      (by decide) (by decide) rfl rfl).1⟩

/-- C2 counterexample: a batch whose single selected identifier has no
matching in-memory record.  One identifier is missing, yet the reported
failure count is 0 (not at least 1); the workflow still completes and
emits the summary toast. -/
theorem C2_counterexample :
    stGhost.selectedScrappedMovieIds.card = 1 ∧
    ("ghost" ∈ stGhost.selectedScrappedMovieIds) ∧
    ("ghost" ∉ stGhost.scrappedMovies.map (fun r => r.id)) ∧
    (handleInsertSelectedScrappedMoviesToFirebase envAllOk 0 stGhost).failCount = 0 ∧
    ¬ 1 ≤ (handleInsertSelectedScrappedMoviesToFirebase envAllOk 0 stGhost).failCount ∧
    (handleInsertSelectedScrappedMoviesToFirebase envAllOk 0 stGhost).toasts
      = [ToastMsg.batchComplete 0 0] := by
  decide

/-- C2 (amended): identifiers absent from the in-memory list are silently
dropped by the `filter`: the failure count equals the number of insert
failures among the present selected records only, no backend delete is
issued for a missing identifier, and the workflow still completes with the
summary toast. -/
theorem C2_missing_ids_silently_skipped (env : Env) (now : Date)
    (st : DashboardState) :
    (handleInsertSelectedScrappedMoviesToFirebase env now st).failCount
        = numFailed env now (moviesToInsert st) ∧
    (handleInsertSelectedScrappedMoviesToFirebase env now st).successCount
        = numInserted env now (moviesToInsert st) ∧
    (∀ i ∈ st.selectedScrappedMovieIds,
        i ∉ st.scrappedMovies.map (fun r => r.id) →
        StoreCall.deleteScrapped i
          ∉ (handleInsertSelectedScrappedMoviesToFirebase env now st).calls) ∧
    (st.selectedScrappedMovieIds ≠ ∅ →
      (handleInsertSelectedScrappedMoviesToFirebase env now st).toasts.getLast?
        = some (ToastMsg.batchComplete
            (handleInsertSelectedScrappedMoviesToFirebase env now st).successCount
            (handleInsertSelectedScrappedMoviesToFirebase env now st).failCount)) := by
  by_cases hsel : st.selectedScrappedMovieIds = ∅
  · have hmti := moviesToInsert_of_empty hsel
    have hcard : st.selectedScrappedMovieIds.card = 0 := by simp [hsel]
    unfold handleInsertSelectedScrappedMoviesToFirebase
    rw [if_pos hcard]
    refine ⟨by rw [hmti]; rfl, by rw [hmti]; rfl, ?_, fun hne => absurd hsel hne⟩
    intro i _ _ h
    simp at h
  · rw [handle_spec env now st hsel]
    refine ⟨rfl, rfl, ?_, fun _ => List.getLast?_concat _⟩
    intro i _ hnot hmem
    obtain ⟨x, hx, hxid, _, _⟩ := exists_of_delete_mem_callsOf env now hmem
    exact hnot (hxid ▸ List.mem_map_of_mem (fun r => r.id) (moviesToInsert_subset hx))

/-- Witness for the amended C2 at a concrete input. -/
theorem C2_missing_ids_silently_skipped_witness :
    ("ghost" ∈ stGhost.selectedScrappedMovieIds) ∧
    ("ghost" ∉ stGhost.scrappedMovies.map (fun r => r.id)) ∧
    stGhost.selectedScrappedMovieIds ≠ ∅ ∧
    (handleInsertSelectedScrappedMoviesToFirebase envAllOk 0 stGhost).failCount
      = numFailed envAllOk 0 (moviesToInsert stGhost) ∧
    StoreCall.deleteScrapped "ghost"
      ∉ (handleInsertSelectedScrappedMoviesToFirebase envAllOk 0 stGhost).calls ∧
    (handleInsertSelectedScrappedMoviesToFirebase envAllOk 0 stGhost).toasts.getLast?
      = some (ToastMsg.batchComplete
          (handleInsertSelectedScrappedMoviesToFirebase envAllOk 0 stGhost).successCount
          (handleInsertSelectedScrappedMoviesToFirebase envAllOk 0 stGhost).failCount) :=
  ⟨by decide, by decide, by decide,
    (C2_missing_ids_silently_skipped envAllOk 0 stGhost).1,
    (C2_missing_ids_silently_skipped envAllOk 0 stGhost).2.2.1 "ghost"
      (by decide) (by decide),
    (C2_missing_ids_silently_skipped envAllOk 0 stGhost).2.2.2 (by decide)⟩

/-- C3: if the primary-store insert fails for a record, no backend delete
is attempted for it, the record remains (unchanged) in the secondary
store, and it is counted as a per-record failure. -/
theorem C3_insert_failure_leaves_backend_untouched (env : Env) (now : Date)
    (st : DashboardState) (m : ScrapeRecord)
    (hids : (st.scrappedMovies.map (fun r => r.id)).Nodup)
    (hm : m ∈ st.scrappedMovies)
    (hsel : m.id ∈ st.selectedScrappedMovieIds)
    (hins : env.insertOk (toFirebaseMovieData now m) = false)
    (hback : m ∈ st.backendStore) :
    StoreCall.deleteScrapped m.id
        ∉ (handleInsertSelectedScrappedMoviesToFirebase env now st).calls ∧
    m ∈ (handleInsertSelectedScrappedMoviesToFirebase env now st).state.backendStore ∧
    1 ≤ (handleInsertSelectedScrappedMoviesToFirebase env now st).failCount := by
  have hne : st.selectedScrappedMovieIds ≠ ∅ := Finset.ne_empty_of_mem hsel
  rw [handle_spec env now st hne]
  have hmti : m ∈ moviesToInsert st := mem_moviesToInsert hm hsel
  refine ⟨?_, ?_, numFailed_pos env now hmti hins⟩
  · intro hmem
    obtain ⟨x, hx, hxid, hxins, _⟩ := exists_of_delete_mem_callsOf env now hmem
    have hxm : x = m := id_inj_on_scrapped hids (moviesToInsert_subset hx) hm hxid
    rw [hxm, hins] at hxins
    simp at hxins
  · refine mem_purge _ _ hback ?_
    intro hdel
    obtain ⟨x, hx, hxid, hxins⟩ := exists_of_mem_deletedIds env now hdel
    have hxm : x = m := id_inj_on_scrapped hids (moviesToInsert_subset hx) hm hxid
    rw [hxm, hins] at hxins
    simp at hxins

/-- Witness for C3 at a concrete input. -/
theorem C3_insert_failure_leaves_backend_untouched_witness :
    (stOne.scrappedMovies.map (fun r => r.id)).Nodup ∧
    sampleMovie ∈ stOne.scrappedMovies ∧
    sampleMovie.id ∈ stOne.selectedScrappedMovieIds ∧
    envInsertFails.insertOk (toFirebaseMovieData 0 sampleMovie) = false ∧
    sampleMovie ∈ stOne.backendStore ∧
    sampleMovie ∈ (handleInsertSelectedScrappedMoviesToFirebase envInsertFails 0 stOne).state.backendStore :=
  ⟨by decide, by decide, by decide, rfl, by decide,
    (C3_insert_failure_leaves_backend_untouched envInsertFails 0 stOne sampleMovie
      (by decide) (by decide) (by decide) rfl (by decide)).2.1⟩

/-- C4: failure isolation — every record of the batch gets its insert
attempt (one `addDoc` call each) and is classified (successes and failures
partition the batch), and the workflow always runs to completion, ending
with the aggregate summary toast rather than propagating an exception. -/
theorem C4_failure_isolation (env : Env) (now : Date) (st : DashboardState) :
    (handleInsertSelectedScrappedMoviesToFirebase env now st).successCount
        + (handleInsertSelectedScrappedMoviesToFirebase env now st).failCount
        = (moviesToInsert st).length ∧
    (∀ m ∈ moviesToInsert st,
        StoreCall.addDoc (toFirebaseMovieData now m)
          ∈ (handleInsertSelectedScrappedMoviesToFirebase env now st).calls) ∧
    (st.selectedScrappedMovieIds ≠ ∅ →
      (handleInsertSelectedScrappedMoviesToFirebase env now st).toasts.getLast?
        = some (ToastMsg.batchComplete
            (handleInsertSelectedScrappedMoviesToFirebase env now st).successCount
            (handleInsertSelectedScrappedMoviesToFirebase env now st).failCount)) := by
  by_cases hsel : st.selectedScrappedMovieIds = ∅
  · have hmti := moviesToInsert_of_empty hsel
    have hcard : st.selectedScrappedMovieIds.card = 0 := by simp [hsel]
    unfold handleInsertSelectedScrappedMoviesToFirebase
    rw [if_pos hcard]
    refine ⟨by rw [hmti]; rfl, ?_, fun hne => absurd hsel hne⟩
    intro m hm
    rw [hmti] at hm
    cases hm
  · rw [handle_spec env now st hsel]
    exact ⟨numInserted_add_numFailed env now _,
      fun m hm => addDoc_mem_callsOf env now hm,
      fun _ => List.getLast?_concat _⟩

/-- Witness for C4 at a concrete input. -/
theorem C4_failure_isolation_witness :
    sampleMovie ∈ moviesToInsert stOne ∧
    stOne.selectedScrappedMovieIds ≠ ∅ ∧
    (handleInsertSelectedScrappedMoviesToFirebase envAllOk 0 stOne).successCount
        + (handleInsertSelectedScrappedMoviesToFirebase envAllOk 0 stOne).failCount
        = (moviesToInsert stOne).length ∧
    StoreCall.addDoc (toFirebaseMovieData 0 sampleMovie)
      ∈ (handleInsertSelectedScrappedMoviesToFirebase envAllOk 0 stOne).calls ∧
    (handleInsertSelectedScrappedMoviesToFirebase envAllOk 0 stOne).toasts.getLast?
      = some (ToastMsg.batchComplete
          (handleInsertSelectedScrappedMoviesToFirebase envAllOk 0 stOne).successCount
          (handleInsertSelectedScrappedMoviesToFirebase envAllOk 0 stOne).failCount) :=
  ⟨by decide, by decide,
    (C4_failure_isolation envAllOk 0 stOne).1,
    (C4_failure_isolation envAllOk 0 stOne).2.1 sampleMovie (by decide),
    (C4_failure_isolation envAllOk 0 stOne).2.2 (by decide)⟩

/-- C5: an empty selection is a no-op — no store call, all three outcome
categories (successes, warnings, failures) at zero, only the info toast,
and the state is untouched. -/
theorem C5_empty_selection_is_noop (env : Env) (now : Date) (st : DashboardState)
    (hsel : st.selectedScrappedMovieIds = ∅) :
    (handleInsertSelectedScrappedMoviesToFirebase env now st).calls = [] ∧
    (handleInsertSelectedScrappedMoviesToFirebase env now st).successCount = 0 ∧
    (handleInsertSelectedScrappedMoviesToFirebase env now st).failCount = 0 ∧
    (∀ n, ToastMsg.deleteWarning n
        ∉ (handleInsertSelectedScrappedMoviesToFirebase env now st).toasts) ∧
    (handleInsertSelectedScrappedMoviesToFirebase env now st).state = st := by
  have hcard : st.selectedScrappedMovieIds.card = 0 := by simp [hsel]
  unfold handleInsertSelectedScrappedMoviesToFirebase
  rw [if_pos hcard]
  refine ⟨rfl, rfl, rfl, ?_, rfl⟩
  intro n h
  simp at h

/-- Witness for C5 at a concrete input. -/
theorem C5_empty_selection_is_noop_witness :
    stEmptySel.selectedScrappedMovieIds = ∅ ∧
    (handleInsertSelectedScrappedMoviesToFirebase envAllOk 0 stEmptySel).calls = [] ∧
    (handleInsertSelectedScrappedMoviesToFirebase envAllOk 0 stEmptySel).state = stEmptySel :=
  ⟨rfl, (C5_empty_selection_is_noop envAllOk 0 stEmptySel rfl).1,
    (C5_empty_selection_is_noop envAllOk 0 stEmptySel rfl).2.2.2.2⟩

/-- C6: every document of the primary store after a batch run either
predates the run or is a migrated copy: keyed by a store-assigned
identifier distinct from the scrape-store identifier (assuming the store's
generator never collides with scrape identifiers), carrying no identifier
in the payload, with the creation timestamp, optional release date and all
nested comment timestamps converted to Firestore timestamps. -/
theorem C6_migrated_docs_drop_scrape_identifier (env : Env) (now : Date)
    (st : DashboardState)
    (hfresh : ∀ (k : Nat) (m : ScrapeRecord), m ∈ st.scrappedMovies → env.newId k ≠ m.id) :
    ∀ doc ∈ (handleInsertSelectedScrappedMoviesToFirebase env now st).state.firebaseStore,
      migratedDocSpec env now st doc := by
  intro doc hdoc
  by_cases hsel : st.selectedScrappedMovieIds = ∅
  · have hcard : st.selectedScrappedMovieIds.card = 0 := by simp [hsel]
    unfold handleInsertSelectedScrappedMoviesToFirebase at hdoc
    rw [if_pos hcard] at hdoc
    exact Or.inl hdoc
  · rw [handle_spec env now st hsel] at hdoc
    rcases List.mem_append.mp hdoc with h | h
    · exact Or.inl h
    · obtain ⟨m, hm, k, hk⟩ := mem_newDocs env now h
      subst hk
      exact Or.inr ⟨m, hm, k, rfl, rfl,
        hfresh k m (moviesToInsert_subset hm), rfl, rfl, rfl⟩

/-- Witness for C6 at a concrete input. -/
theorem C6_migrated_docs_drop_scrape_identifier_witness :
    ("fb1", toFirebaseMovieData 0 sampleMovie)
        ∈ (handleInsertSelectedScrappedMoviesToFirebase envAllOk 0 stOne).state.firebaseStore ∧
    migratedDocSpec envAllOk 0 stOne ("fb1", toFirebaseMovieData 0 sampleMovie) :=
  ⟨by decide,
    C6_migrated_docs_drop_scrape_identifier envAllOk 0 stOne
      (fun k m hm => by
        have hm1 : m = sampleMovie := List.mem_singleton.mp hm
        subst hm1
        show ("fb1" : String) ≠ sampleMovie.id
        decide)
      ("fb1", toFirebaseMovieData 0 sampleMovie) (by decide)⟩

/-- C7: the workflow never touches the operator's selection during the
per-record loop, and a run over a non-empty selection ends with the
selection cleared. -/
theorem C7_selection_cleared_on_completion (env : Env) (now : Date)
    (st : DashboardState) :
    (∀ (acc : BatchRunResult) (movie : ScrapeRecord),
        (processScrappedMovie env now acc movie).state.selectedScrappedMovieIds
          = acc.state.selectedScrappedMovieIds) ∧
    (st.selectedScrappedMovieIds ≠ ∅ →
      (handleInsertSelectedScrappedMoviesToFirebase env now st).state.selectedScrappedMovieIds
        = ∅) := by
  refine ⟨processScrappedMovie_selected env now, fun hne => ?_⟩
  rw [handle_spec env now st hne]

/-- Witness for C7 at a concrete input. -/
theorem C7_selection_cleared_on_completion_witness :
    stOne.selectedScrappedMovieIds ≠ ∅ ∧
    (handleInsertSelectedScrappedMoviesToFirebase envAllOk 0 stOne).state.selectedScrappedMovieIds
      = ∅ :=
  ⟨by decide, (C7_selection_cleared_on_completion envAllOk 0 stOne).2 (by decide)⟩

lemma foldl_insert_relationship (l : List Movie) (s : Finset String) :
    l.foldl
        (fun s episode =>
          if episode.relationship ≠ "" then insert episode.relationship s else s)
        s
      = ((l.map (fun m => m.relationship)).filter (fun r => r ≠ "")).toFinset ∪ s := by
  induction l generalizing s with
  | nil => simp
  | cons a l ih =>
    rw [List.foldl_cons, ih]
    by_cases h : a.relationship = "" <;>
      · ext x
        simp [h]
        try tauto

lemma foldl_comment_lengths (l : List Movie) (acc : Nat) :
    l.foldl (fun acc movie => acc + movie.comments.length) acc
      = acc + (l.map (fun m => m.comments.length)).sum := by
  induction l generalizing acc with
  | nil => simp
  | cons a l ih =>
    rw [List.foldl_cons, ih, List.map_cons, List.sum_cons]
    omega

/-- C8: the derived statistics are the list length, the `isSeries` count,
the number of distinct non-empty relationship keys among `isSeries`
records, the user count, the total comment count, and the five most
recently created records in descending creation order (they dominate the
timestamps of all remaining records). -/
theorem C8_dashboard_stats_correct (movies : List Movie) (usersSize : Nat) :
    (getDashboardStats movies usersSize).totalMovies = movies.length ∧
    (getDashboardStats movies usersSize).totalEpisodes
        = movies.countP (fun m => m.isSeries) ∧
    (getDashboardStats movies usersSize).totalSeries
        = (((movies.filter (fun m => m.isSeries)).map
              (fun m => m.relationship)).filter (fun r => r ≠ "")).toFinset.card ∧
    (getDashboardStats movies usersSize).totalUsers = usersSize ∧
    (getDashboardStats movies usersSize).totalComments
        = (movies.map (fun m => m.comments.length)).sum ∧
    (getDashboardStats movies usersSize).recentMovies.length
        = min 5 movies.length ∧
    List.Sorted recentLe (getDashboardStats movies usersSize).recentMovies ∧
    ∃ rest : List Movie,
      List.Perm ((getDashboardStats movies usersSize).recentMovies ++ rest) movies ∧
      ∀ x ∈ (getDashboardStats movies usersSize).recentMovies, ∀ y ∈ rest,
        y.uploadDate ≤ x.uploadDate := by
  have hsorted : List.Sorted recentLe (movies.insertionSort recentLe) :=
    List.sorted_insertionSort recentLe movies
  unfold getDashboardStats
  dsimp only
  refine ⟨rfl, ?_, ?_, rfl, ?_, ?_, ?_, ?_⟩
  · exact (List.countP_eq_length_filter _ _).symm
  · rw [foldl_insert_relationship]
    simp
  · rw [foldl_comment_lengths, Nat.zero_add]
  · rw [List.length_take, List.length_insertionSort]
  · exact List.Pairwise.sublist (List.take_sublist 5 _) hsorted
  · refine ⟨(movies.insertionSort recentLe).drop 5, ?_, ?_⟩
    · rw [List.take_append_drop]
      exact List.perm_insertionSort recentLe movies
    · intro x hx y hy
      exact hsorted.rel_of_mem_take_of_mem_drop hx hy

/-- Witness evaluating the statistics at a concrete movie list. -/
theorem C8_dashboard_stats_correct_witness :
    (getDashboardStats [movieA, movieB] 3).totalMovies = [movieA, movieB].length ∧
    (getDashboardStats [movieA, movieB] 3).totalEpisodes
      = [movieA, movieB].countP (fun m => m.isSeries) :=
  ⟨(C8_dashboard_stats_correct [movieA, movieB] 3).1,
    (C8_dashboard_stats_correct [movieA, movieB] 3).2.1⟩

/-- C9: `deleteComment` rewrites only the matching movie document, and
only its comment list (removing exactly the comments with the given
identifier, preserving the others in order and every other field); when no
document has the identifier it writes nothing and returns normally. -/
theorem C9_deleteComment_frame (store : List (String × Movie))
    (movieId commentId : String) :
    ((∀ e ∈ store, e.1 ≠ movieId) →
      (deleteComment store movieId commentId).1 = store ∧
      (deleteComment store movieId commentId).2 = false) ∧
    (deleteComment store movieId commentId).1.length = store.length ∧
    (∀ e ∈ store, e.1 ≠ movieId → e ∈ (deleteComment store movieId commentId).1) ∧
    (∀ e ∈ store, e.1 = movieId →
      ∃ m2, (e.1, m2) ∈ (deleteComment store movieId commentId).1 ∧
        commentRemovalSpec e.2 m2 commentId) := by
  refine ⟨?_, ?_, ?_, ?_⟩
  · intro habs
    have hfind : store.find? (fun e => e.1 == movieId) = none := by
      rw [List.find?_eq_none]
      intro x hx
      simpa using habs x hx
    simp [deleteComment, hfind]
  · cases hfind : store.find? (fun e => e.1 == movieId) with
    | none => simp [deleteComment, hfind]
    | some e0 => simp [deleteComment, hfind]
  · intro e he hne
    cases hfind : store.find? (fun e => e.1 == movieId) with
    | none =>
      simp only [deleteComment, hfind]
      exact he
    | some e0 =>
      simp only [deleteComment, hfind]
      refine List.mem_map.mpr ⟨e, he, ?_⟩
      have hbeq : (e.1 == movieId) = false := by simpa using hne
      simp [hbeq]
  · intro e he hid
    cases hfind : store.find? (fun e => e.1 == movieId) with
    | none =>
      exfalso
      have := List.find?_eq_none.mp hfind e he
      simp [hid] at this
    | some e0 =>
      simp only [deleteComment, hfind]
      refine ⟨{ e.2 with
          comments := e.2.comments.filter (fun c => c.id != commentId) },
        ?_, rfl, List.filter_sublist _, ?_, rfl, rfl, rfl, rfl, rfl, rfl,
        rfl, rfl, rfl, rfl, rfl, rfl, rfl, rfl, rfl⟩
      · refine List.mem_map.mpr ⟨e, he, ?_⟩
        have hbeq : (e.1 == movieId) = true := by simpa using hid
        simp [hbeq]
      · intro c hc
        constructor
        · intro hcm
          simpa using (List.mem_filter.mp hcm).2
        · intro hne2
          exact List.mem_filter.mpr ⟨hc, by simpa using hne2⟩

/-- Witness for C9 at a concrete input: deleting a comment of a movie
identifier that is not in the collection writes nothing. -/
theorem C9_deleteComment_frame_witness :
    (∀ e ∈ commentsStore, e.1 ≠ "zz") ∧
    (deleteComment commentsStore "zz" "c1").1 = commentsStore ∧
    (deleteComment commentsStore "zz" "c1").2 = false :=
  ⟨by decide,
    ((C9_deleteComment_frame commentsStore "zz" "c1").1 (by decide)).1,
    ((C9_deleteComment_frame commentsStore "zz" "c1").1 (by decide)).2⟩

lemma norun_cons_iff {b : Bool} {c : Char} {cs : List Char} :
    NoRun b (c :: cs)
      ↔ isSlugChar c = true ∧ (b = true → isSlugAlnum c = true)
          ∧ NoRun (c == '-') cs :=
  Iff.rfl

lemma alnum_ne_dash {c : Char} (h : isSlugAlnum c = true) : (c == '-') = false := by
  cases hb : (c == '-')
  · rfl
  · have hc : c = '-' := by simpa using hb
    subst hc
    exact absurd h (by decide)

lemma jsToLower_slug {c : Char} (h : isSlugChar c = true) : jsToLower c = c := by
  simp only [isSlugChar, isSlugAlnum, Bool.or_eq_true, Bool.and_eq_true,
    decide_eq_true_eq, beq_iff_eq] at h
  rcases h with h | rfl
  · unfold jsToLower
    rw [if_neg (by omega)]
  · decide

lemma map_fix (f : Char → Char) :
    ∀ l : List Char, (∀ c ∈ l, f c = c) → l.map f = l
  | [], _ => rfl
  | c :: cs, h => by
    rw [List.map_cons, h c (List.mem_cons_self c cs),
      map_fix f cs (fun d hd => h d (List.mem_cons_of_mem c hd))]

lemma norun_of_true {l : List Char} (h : NoRun true l) : NoRun false l := by
  cases l with
  | nil => trivial
  | cons c cs =>
    obtain ⟨h1, _, h3⟩ := norun_cons_iff.mp h
    exact norun_cons_iff.mpr ⟨h1, fun hb => absurd hb (by decide), h3⟩

lemma norun_all_slug :
    ∀ {b : Bool} {l : List Char}, NoRun b l → ∀ c ∈ l, isSlugChar c = true
  | _, [], _, c, hc => absurd hc (List.not_mem_nil c)
  | _, a :: l, h, c, hc => by
    rcases List.mem_cons.mp hc with rfl | hc2
    · exact (norun_cons_iff.mp h).1
    · exact norun_all_slug (norun_cons_iff.mp h).2.2 c hc2

lemma norun_collapse : ∀ (b : Bool) (l : List Char), NoRun b (collapseNonAlnum b l)
  | _, [] => trivial
  | b, c :: cs => by
    by_cases ha : isSlugAlnum c = true
    · simp only [collapseNonAlnum, ha, if_true]
      refine norun_cons_iff.mpr ⟨by simp [isSlugChar, ha], fun _ => ha, ?_⟩
      rw [alnum_ne_dash ha]
      exact norun_collapse false cs
    · have ha2 : isSlugAlnum c = false := by simpa using ha
      cases b
      · simp only [collapseNonAlnum, ha2]
        refine norun_cons_iff.mpr ⟨by decide, fun hb => absurd hb (by decide), ?_⟩
        rw [show (('-' : Char) == '-') = true from by decide]
        exact norun_collapse true cs
      · simp only [collapseNonAlnum, ha2]
        exact norun_collapse true cs

lemma norun_collapse_id :
    ∀ (b : Bool) (l : List Char), NoRun b l → collapseNonAlnum b l = l
  | _, [], _ => rfl
  | b, c :: cs, h => by
    obtain ⟨h1, h2, h3⟩ := norun_cons_iff.mp h
    by_cases ha : isSlugAlnum c = true
    · simp only [collapseNonAlnum, ha, if_true]
      rw [alnum_ne_dash ha] at h3
      rw [norun_collapse_id false cs h3]
    · have ha2 : isSlugAlnum c = false := by simpa using ha
      have hc : c = '-' := by
        simp only [isSlugChar, ha2, Bool.false_or, beq_iff_eq] at h1
        exact h1
      subst hc
      cases b
      · simp only [collapseNonAlnum, ha2, Bool.false_eq_true, if_false]
        rw [show (('-' : Char) == '-') = true from by decide] at h3
        rw [norun_collapse_id true cs h3]
      · exact absurd (h2 rfl) (by decide)

lemma norun_tail : ∀ {l : List Char}, NoRun false l → NoRun false l.tail
  | [], _ => trivial
  | c :: cs, h => by
    have h3 := (norun_cons_iff.mp h).2.2
    cases hb : (c == '-')
    · rw [hb] at h3
      exact h3
    · rw [hb] at h3
      exact norun_of_true h3

lemma norun_dropLast : ∀ (b : Bool) (l : List Char), NoRun b l → NoRun b l.dropLast
  | _, [], _ => trivial
  | _, [_], _ => trivial
  | b, c :: d :: t, h => by
    obtain ⟨h1, h2, h3⟩ := norun_cons_iff.mp h
    rw [List.dropLast_cons₂]
    exact norun_cons_iff.mpr ⟨h1, h2, norun_dropLast _ (d :: t) h3⟩

lemma norun_getLast_dropLast :
    ∀ (b : Bool) (l : List Char), NoRun b l → l.getLast? = some '-' →
      l.dropLast.getLast? ≠ some '-'
  | _, [], _, hlast => by simp at hlast
  | _, [_], _, _ => by
    intro hcon
    simp at hcon
  | b, c :: d :: t, h, hlast => by
    obtain ⟨h1, h2, h3⟩ := norun_cons_iff.mp h
    cases t with
    | nil =>
      have hd : d = '-' := by simpa using hlast
      subst hd
      have hcne : (c == '-') = false := by
        cases hcb : (c == '-')
        · rfl
        · rw [hcb] at h3
          exact absurd ((norun_cons_iff.mp h3).2.1 rfl) (by decide)
      have hc : c ≠ '-' := by simpa using hcne
      show (some c : Option Char) ≠ some '-'
      exact fun hcon => hc (Option.some.inj hcon)
    | cons x t2 =>
      have hlast2 : (d :: x :: t2).getLast? = some '-' := by
        rw [List.getLast?_cons_cons] at hlast
        exact hlast
      have ih := norun_getLast_dropLast (c == '-') (d :: x :: t2) h3 hlast2
      rw [List.dropLast_cons₂, List.dropLast_cons₂, List.getLast?_cons_cons,
        ← List.dropLast_cons₂]
      exact ih

lemma mem_of_mem_trim {c : Char} {l : List Char}
    (h : c ∈ trimEdgeHyphens l) : c ∈ l := by
  unfold trimEdgeHyphens dropTrailHyphen at h
  have hmem : c ∈ dropLeadHyphen l := by
    split at h
    · exact List.dropLast_subset _ h
    · exact h
  unfold dropLeadHyphen at hmem
  split at hmem
  · exact List.tail_subset _ hmem
  · exact hmem

lemma norun_dropLead {l : List Char} (h : NoRun false l) :
    NoRun false (dropLeadHyphen l) := by
  unfold dropLeadHyphen
  split
  · exact norun_tail h
  · exact h

lemma head_dropLead {l : List Char} (h : NoRun false l) :
    (dropLeadHyphen l).head? ≠ some '-' := by
  unfold dropLeadHyphen
  by_cases h1 : l.head? = some '-'
  · rw [if_pos h1]
    cases l with
    | nil => simp at h1
    | cons c cs =>
      have hc : c = '-' := by simpa using h1
      subst hc
      have h3 : NoRun true cs := by
        have := (norun_cons_iff.mp h).2.2
        rw [show (('-' : Char) == '-') = true from by decide] at this
        exact this
      cases cs with
      | nil => simp
      | cons d t =>
        have hd : isSlugAlnum d = true := (norun_cons_iff.mp h3).2.1 rfl
        have hdne : d ≠ '-' := by simpa using alnum_ne_dash hd
        show (some d : Option Char) ≠ some '-'
        exact fun hcon => hdne (Option.some.inj hcon)
  · rw [if_neg h1]
    exact h1

lemma norun_dropTrail (b : Bool) (l : List Char) (h : NoRun b l) :
    NoRun b (dropTrailHyphen l) := by
  unfold dropTrailHyphen
  split
  · exact norun_dropLast b l h
  · exact h

lemma head_dropTrail (l : List Char) :
    (dropTrailHyphen l).head? = none ∨ (dropTrailHyphen l).head? = l.head? := by
  unfold dropTrailHyphen
  split
  · cases l with
    | nil => exact Or.inl rfl
    | cons c cs =>
      cases cs with
      | nil => exact Or.inl rfl
      | cons d t =>
        rw [List.dropLast_cons₂]
        exact Or.inr rfl
  · exact Or.inr rfl

lemma last_dropTrail (b : Bool) (l : List Char) (h : NoRun b l) :
    (dropTrailHyphen l).getLast? ≠ some '-' := by
  unfold dropTrailHyphen
  by_cases hlast : l.getLast? = some '-'
  · rw [if_pos hlast]
    exact norun_getLast_dropLast b l h hlast
  · rw [if_neg hlast]
    exact hlast

lemma trim_id (l : List Char) (h1 : l.head? ≠ some '-')
    (h2 : l.getLast? ≠ some '-') : trimEdgeHyphens l = l := by
  unfold trimEdgeHyphens dropLeadHyphen dropTrailHyphen
  rw [if_neg h1, if_neg h2]

lemma slug_list_idempotent (l : List Char) :
    trimEdgeHyphens (collapseNonAlnum false
        ((trimEdgeHyphens (collapseNonAlnum false l)).map jsToLower))
      = trimEdgeHyphens (collapseNonAlnum false l) := by
  have hL : NoRun false (collapseNonAlnum false l) := norun_collapse false l
  have hLead : NoRun false (dropLeadHyphen (collapseNonAlnum false l)) :=
    norun_dropLead hL
  have hT : NoRun false (trimEdgeHyphens (collapseNonAlnum false l)) :=
    norun_dropTrail false _ hLead
  have hmap : (trimEdgeHyphens (collapseNonAlnum false l)).map jsToLower
      = trimEdgeHyphens (collapseNonAlnum false l) :=
    map_fix _ _ (fun c hc => jsToLower_slug (norun_all_slug hL c (mem_of_mem_trim hc)))
  have hhead : (trimEdgeHyphens (collapseNonAlnum false l)).head? ≠ some '-' := by
    rcases head_dropTrail (dropLeadHyphen (collapseNonAlnum false l)) with h | h
    · unfold trimEdgeHyphens
      rw [h]
      simp
    · unfold trimEdgeHyphens
      rw [h]
      exact head_dropLead hL
  have hlast : (trimEdgeHyphens (collapseNonAlnum false l)).getLast? ≠ some '-' :=
    last_dropTrail false _ hLead
  rw [hmap, norun_collapse_id false _ hT, trim_id _ hhead hlast]

/-- C10: `generateSlug` is idempotent — its output contains only lowercase
letters, digits and non-adjacent hyphens with no edge hyphen, so a second
application leaves it unchanged. -/
theorem C10_generateSlug_idempotent (s : String) :
    generateSlug (generateSlug s) = generateSlug s := by
  unfold generateSlug
  exact congrArg String.mk (slug_list_idempotent (s.data.map jsToLower))

end ZeeStream
